import Mathlib

/-!
A shallow embedding of the storage core of the recipe-bot repository:
the `Recipe` entity (src/models/recipe.py), the three storage backends
(src/storage/json_storage.py, src/storage/persistent_json_storage.py,
src/storage/postgres_storage.py) and the language-model client
(src/llm/openai_llm.py), with theorems settling the specification claims.

Modelling conventions:
* `created_at` / `updated_at` are ISO-8601 strings in the source; ISO-8601
  encoding of instants is injective and order-preserving, so timestamps are
  abstracted to natural numbers, and each call of `datetime.now()` in the
  source becomes an explicit `now : Nat` argument of the embedded function.
* A serialized recipe dictionary is `RecipeDict`; `json.dumps` followed by
  `json.loads` is the identity on such dictionaries, so the JSON text layer
  is elided.
* File-system state is a map from user id to `FileContent`; a file that is
  absent is `missing`, one that is unreadable or whose JSON fails to parse
  is `corrupt`, and an entry on which `Recipe.from_dict` would raise is a
  `none` entry of a `good` file (both failure modes make the source's
  `get_recipes` return `[]` via its `except` clause).
* The PostgreSQL `recipes` table is a list of `Row`s; a `data` column whose
  JSON does not parse back into a recipe is `none`.  `ORDER BY created_at
  DESC` is modelled by insertion sort with the corresponding relation.
* I/O itself always succeeds in the model; read-side failures are part of
  the state (`corrupt` files, `none` payloads) as described above.
-/

/-- Recipe entity, src/models/recipe.py (dataclass `Recipe`). -/
structure Recipe where
  id : String
  name : String
  content : String
  created_at : Nat
  updated_at : Nat
  is_ai_generated : Bool := false
deriving DecidableEq, Repr

/-- A string-keyed dictionary holding a serialized recipe.  The field
`is_ai_generated` is optional because `Recipe.from_dict` (`cls(**data)`)
lets the dataclass default `False` apply when the key is absent. -/
structure RecipeDict where
  id : String
  name : String
  content : String
  created_at : Nat
  updated_at : Nat
  is_ai_generated : Option Bool
deriving DecidableEq, Repr

/-- `Recipe.to_dict`: `asdict(self)`, field for field. -/
def Recipe.to_dict (r : Recipe) : RecipeDict :=
  ⟨r.id, r.name, r.content, r.created_at, r.updated_at, some r.is_ai_generated⟩

/-- `Recipe.from_dict`: `cls(**data)`; a missing `is_ai_generated` key
defaults to `false`. -/
def Recipe.from_dict (d : RecipeDict) : Recipe :=
  ⟨d.id, d.name, d.content, d.created_at, d.updated_at, d.is_ai_generated.getD false⟩

/-- `Recipe.create_new`: fresh recipe with generated id and
`created_at == updated_at == now`. -/
def Recipe.create_new (user_id : Int) (name content : String) (now : Nat)
    (is_ai_generated : Bool := false) : Recipe :=
  ⟨"recipe_" ++ toString user_id ++ "_" ++ toString now, name, content, now, now,
    is_ai_generated⟩

/-- `Recipe.update_content`: sets `content` and stamps `updated_at` with the
current time; all other fields are untouched. -/
def Recipe.update_content (r : Recipe) (new_content : String) (now : Nat) : Recipe :=
  { r with content := new_content, updated_at := now }

/-- Contents of one user's JSON file, as seen by the readers in
json_storage.py / persistent_json_storage.py. -/
inductive FileContent where
  | missing
  | corrupt
  | good (entries : List (Option RecipeDict))
deriving DecidableEq

/-- File-system state of a file backend: one file per user id. -/
def FileStore : Type := Int → FileContent

/-- Parse the entries of a user file; one bad entry fails the whole parse
(the source's list comprehension raises inside the `try`). -/
def parseEntries : List (Option RecipeDict) → Option (List Recipe)
  | [] => some []
  | none :: _ => none
  | some d :: rest => (parseEntries rest).map (fun l => Recipe.from_dict d :: l)

/-- Shared read path of both file backends (their `get_recipes` bodies are
identical): missing file or any parse failure degrades to `[]`. -/
def readRecipes (store : FileStore) (u : Int) : List Recipe :=
  match store u with
  | .missing => []
  | .corrupt => []
  | .good es => (parseEntries es).getD []

/-- Shared write path of both file backends: rewrite user `u`'s whole file
with the serialized list. -/
def writeRecipes (store : FileStore) (u : Int) (l : List Recipe) : FileStore :=
  fun v => if v = u then .good (l.map (fun r => some r.to_dict)) else store v

/-- Replace-first-match loop of `JSONFileStorage.update_recipe` (and of the
upsert branch in `PersistentJSONStorage.save_recipe`): the first stored
recipe whose id matches is replaced and the loop breaks. -/
def replaceFirst : List Recipe → String → Recipe → List Recipe
  | [], _, _ => []
  | r :: rest, rid, nr => if r.id == rid then nr :: rest else r :: replaceFirst rest rid nr

namespace JSONFileStorage

/-- `JSONFileStorage.get_recipes`. -/
def get_recipes (store : FileStore) (u : Int) : List Recipe :=
  readRecipes store u

/-- `JSONFileStorage.get_recipe`: first stored recipe with the id, else
`None`. -/
def get_recipe (store : FileStore) (u : Int) (recipe_id : String) : Option Recipe :=
  (get_recipes store u).find? (fun r => r.id == recipe_id)

/-- `JSONFileStorage.save_recipe`: blind append, then rewrite the file. -/
def save_recipe (store : FileStore) (u : Int) (recipe : Recipe) : FileStore :=
  writeRecipes store u (get_recipes store u ++ [recipe])

/-- `JSONFileStorage.update_recipe`: replace the first match in place and
rewrite the file; a warning-only no-op when the id is absent. -/
def update_recipe (store : FileStore) (u : Int) (recipe_id : String) (recipe : Recipe) :
    FileStore :=
  let recipes := get_recipes store u
  if recipes.any (fun r => r.id == recipe_id) then
    writeRecipes store u (replaceFirst recipes recipe_id recipe)
  else store

/-- `JSONFileStorage.delete_recipe`: filter the id out and rewrite. -/
def delete_recipe (store : FileStore) (u : Int) (recipe_id : String) : FileStore :=
  writeRecipes store u ((get_recipes store u).filter (fun r => !(r.id == recipe_id)))

end JSONFileStorage

namespace PersistentJSONStorage

/-- `PersistentJSONStorage.get_recipes` (same body as the JSON backend). -/
def get_recipes (store : FileStore) (u : Int) : List Recipe :=
  readRecipes store u

/-- `PersistentJSONStorage.get_recipe`. -/
def get_recipe (store : FileStore) (u : Int) (recipe_id : String) : Option Recipe :=
  (get_recipes store u).find? (fun r => r.id == recipe_id)

/-- `PersistentJSONStorage.save_recipe`: upsert by id — overwrite the first
match in place, else append — then rewrite the file. -/
def save_recipe (store : FileStore) (u : Int) (recipe : Recipe) : FileStore :=
  let recipes := get_recipes store u
  let newRecipes :=
    if recipes.any (fun r => r.id == recipe.id) then replaceFirst recipes recipe.id recipe
    else recipes ++ [recipe]
  writeRecipes store u newRecipes

/-- `PersistentJSONStorage.update_recipe`: delegates to `save_recipe`. -/
def update_recipe (store : FileStore) (u : Int) (recipe : Recipe) : FileStore :=
  save_recipe store u recipe

/-- `PersistentJSONStorage.delete_recipe`. -/
def delete_recipe (store : FileStore) (u : Int) (recipe_id : String) : FileStore :=
  writeRecipes store u ((get_recipes store u).filter (fun r => !(r.id == recipe_id)))

end PersistentJSONStorage

/-- The store of a fresh directory: every user file is absent. -/
def emptyStore : FileStore := fun _ => .missing


/-- One row of the PostgreSQL `recipes` table (postgres_storage.py).  The
`data` column is the JSONB payload; `none` models a payload whose JSON does
not parse back into a recipe. -/
structure Row where
  id : String
  user_id : Int
  name : String
  content : String
  created_at : Nat
  updated_at : Nat
  is_ai_generated : Bool
  data : Option RecipeDict
deriving DecidableEq, Repr

/-- The `recipes` table. -/
abbrev DB : Type := List Row

/-- The row inserted for `recipe` on behalf of `user_id` (the non-conflict
branch of the INSERT). -/
def Recipe.toRow (user_id : Int) (r : Recipe) : Row :=
  ⟨r.id, user_id, r.name, r.content, r.created_at, r.updated_at, r.is_ai_generated,
    some r.to_dict⟩

/-- The relation of `ORDER BY created_at DESC`. -/
def rowOrder (a b : Row) : Prop := b.created_at ≤ a.created_at

instance : DecidableRel rowOrder := fun a b => Nat.decLe b.created_at a.created_at

instance : IsTotal Row rowOrder := ⟨fun a b => (Nat.le_total b.created_at a.created_at)⟩

instance : IsTrans Row rowOrder := ⟨fun _ _ _ h1 h2 => Nat.le_trans h2 h1⟩

/-- Descending creation-time order on recipes (for stating §3's relational
ordering). -/
def recipeOrder (a b : Recipe) : Prop := b.created_at ≤ a.created_at

namespace PostgreSQLStorage

/-- `PostgreSQLStorage.save_recipe`: `INSERT ... ON CONFLICT (id) DO UPDATE
SET name, content, updated_at, data` — the conflict arm rewrites only those
four columns of the clashing row (not `user_id`, `created_at` or
`is_ai_generated`), the other arm appends a fresh row. -/
def save_recipe (db : DB) (u : Int) (r : Recipe) : DB :=
  if (List.any db (fun row => row.id == r.id)) then
    List.map (fun row =>
      if row.id == r.id then
        { row with name := r.name, content := r.content, updated_at := r.updated_at,
                   data := some r.to_dict }
      else row) db
  else db ++ [r.toRow u]

/-- `PostgreSQLStorage.get_recipes`: select `data` of the user's rows in
creation-time descending order, dropping individually every row whose
payload fails to parse. -/
def get_recipes (db : DB) (u : Int) : List Recipe :=
  (List.insertionSort rowOrder (List.filter (fun row => row.user_id == u) db)).filterMap
    (fun row => row.data.map Recipe.from_dict)

/-- `PostgreSQLStorage.get_recipe`: fetch the row matching user and id;
`None` when absent or when its payload fails to parse. -/
def get_recipe (db : DB) (u : Int) (recipe_id : String) : Option Recipe :=
  (List.find? (fun row => row.user_id == u && row.id == recipe_id) db).bind
    (fun row => row.data.map Recipe.from_dict)

/-- `PostgreSQLStorage.update_recipe`: stamps `recipe.updated_at = now` and
delegates to `save_recipe`. -/
def update_recipe (db : DB) (u : Int) (r : Recipe) (now : Nat) : DB :=
  save_recipe db u { r with updated_at := now }

/-- `PostgreSQLStorage.delete_recipe`: `DELETE WHERE user_id = u AND id =
recipe_id`. -/
def delete_recipe (db : DB) (u : Int) (recipe_id : String) : DB :=
  List.filter (fun row => !(row.user_id == u && row.id == recipe_id)) db

end PostgreSQLStorage

/-- Outcome of the single HTTP request made by
`OpenAILLM.generate_recipe`: a 2xx response with a well-formed body, a
response on which `raise_for_status` raises `HTTPError` with the given
status code, or any other raised exception (connection failure, malformed
body, missing keys). -/
inductive RequestOutcome where
  | ok (content : String)
  | httpError (status : Nat)
  | requestFailure
deriving DecidableEq, Repr

namespace OpenAILLM

/-- Message returned on HTTP 401. -/
def invalidKeyMessage : String :=
  "Error: Invalid OpenAI API key. Please check your API key."

/-- Message returned on HTTP 429. -/
def rateLimitMessage : String :=
  "Error: Rate limit exceeded. Please try again in a few moments."

/-- Message returned on any other HTTP error status. -/
def genericHttpMessage (status : Nat) : String :=
  "Sorry, I couldn\x27t generate a recipe. Error: " ++ toString status

/-- Message returned on any non-HTTP exception. -/
def genericMessage : String :=
  "Sorry, I couldn\x27t generate a recipe at this time. Please try again later."

/-- `OpenAILLM.generate_recipe`, as a function of the request's outcome:
every failure is caught and rendered as text (the `if status == 401 / elif
429 / else` ladder of the `except HTTPError` arm, and the catch-all
`except Exception` arm). -/
def generate_recipe : RequestOutcome → String
  | .ok content => content
  | .httpError status =>
      if status = 401 then invalidKeyMessage
      else if status = 429 then rateLimitMessage
      else genericHttpMessage status
  | .requestFailure => genericMessage

/-- The user-facing failure texts, by category. -/
def isFailureMessage (s : String) : Prop :=
  s = invalidKeyMessage ∨ s = rateLimitMessage ∨
    (∃ status, s = genericHttpMessage status) ∨ s = genericMessage

end OpenAILLM

/-- A concrete recipe used by witnesses and counterexamples. -/
def sampleRecipe : Recipe :=
  ⟨"recipe_1_1", "pasta", "boil the pasta", 1, 1, false⟩

/-- A concrete one-recipe store for user 1 (used by witnesses). -/
def store0 : FileStore := writeRecipes emptyStore 1 [sampleRecipe]

/-- A concrete one-row table whose single row belongs to user 2. -/
def db0 : DB := [Recipe.toRow 2 sampleRecipe]

/-- A store in which every user file is unreadable. -/
def corruptStore : FileStore := fun _ => .corrupt


/-- A stored recipe whose `updated_at` is 5 (used to exhibit the missing
refresh in the file backends). -/
def oldRecipe : Recipe :=
  ⟨"recipe_1_1", "pasta", "boil the pasta", 1, 5, false⟩

/-- A replacement for `oldRecipe` carrying a stale `updated_at` of 0. -/
def newRecipe : Recipe :=
  ⟨"recipe_1_1", "pasta", "bake the pasta", 1, 0, false⟩

/-- A store holding only `oldRecipe`, for user 1. -/
def staleStore : FileStore := writeRecipes emptyStore 1 [oldRecipe]

/-- A one-row table holding `oldRecipe` for user 1. -/
def db1 : DB := [Recipe.toRow 1 oldRecipe]

/-- A second recipe sharing `sampleRecipe`'s id but differing elsewhere. -/
def renamedRecipe : Recipe :=
  ⟨"recipe_1_1", "pasta deluxe", "bake the pasta", 2, 2, true⟩

section FileLemmas

/-- Serialize-then-deserialize round trip on a single recipe. -/
theorem from_dict_to_dict (r : Recipe) : Recipe.from_dict r.to_dict = r := rfl

theorem parseEntries_map_to_dict (l : List Recipe) :
    parseEntries (l.map (fun r => some r.to_dict)) = some l := by
  induction l with
  | nil => rfl
  | cons r rest ih => simp [parseEntries, ih, from_dict_to_dict]

/-- Reading back a file just written returns exactly the written list. -/
theorem readRecipes_writeRecipes (store : FileStore) (u : Int) (l : List Recipe) :
    readRecipes (writeRecipes store u l) u = l := by
  simp [readRecipes, writeRecipes, parseEntries_map_to_dict]

/-- Writing user `u`'s file leaves every other user's file untouched. -/
theorem writeRecipes_frame (store : FileStore) (u v : Int) (l : List Recipe)
    (h : v ≠ u) : writeRecipes store u l v = store v := by
  simp [writeRecipes, h]

theorem replaceFirst_of_not_mem (l : List Recipe) (rid : String) (nr : Recipe)
    (h : l.any (fun r => r.id == rid) = false) : replaceFirst l rid nr = l := by
  induction l with
  | nil => rfl
  | cons r rest ih =>
      simp only [List.any_cons, Bool.or_eq_false_iff] at h
      simp [replaceFirst, h.1, ih h.2]

theorem find?_replaceFirst_self (l : List Recipe) (nr : Recipe)
    (h : l.any (fun r => r.id == nr.id) = true) :
    (replaceFirst l nr.id nr).find? (fun r => r.id == nr.id) = some nr := by
  induction l with
  | nil => simp at h
  | cons r rest ih =>
      by_cases hr : r.id == nr.id
      · simp [replaceFirst, hr, List.find?]
      · simp only [List.any_cons, hr, Bool.false_or] at h
        simp [replaceFirst, hr, List.find?, ih h]

end FileLemmas

section PostgresLemmas

/-- Membership in the relational read result: exactly the user's rows whose
payload parses. -/
theorem mem_pg_get_recipes {db : DB} {u : Int} {r : Recipe} :
    r ∈ PostgreSQLStorage.get_recipes db u ↔
      ∃ row, row ∈ db ∧ row.user_id = u ∧ row.data.map Recipe.from_dict = some r := by
  unfold PostgreSQLStorage.get_recipes
  constructor
  · intro h
    rcases List.mem_filterMap.mp h with ⟨row, hrow, hdata⟩
    rw [List.mem_insertionSort] at hrow
    rcases List.mem_filter.mp hrow with ⟨hdb, huser⟩
    exact ⟨row, hdb, by simpa using huser, hdata⟩
  · rintro ⟨row, hdb, huser, hdata⟩
    refine List.mem_filterMap.mpr ⟨row, ?_, hdata⟩
    rw [List.mem_insertionSort]
    exact List.mem_filter.mpr ⟨hdb, by simpa using huser⟩

/-- After an upsert whose id clashes only with rows of the same user, the
row found for (user, id) carries the just-saved payload. -/
theorem pg_find_map (u : Int) (r : Recipe) :
    ∀ db : List Row, (∀ row ∈ db, row.id = r.id → row.user_id = u) →
      List.any db (fun rw => rw.id == r.id) = true →
      ∃ row, List.find? (fun rw => rw.user_id == u && rw.id == r.id)
          (List.map (fun row =>
            if row.id == r.id then
              { row with name := r.name, content := r.content, updated_at := r.updated_at,
                         data := some r.to_dict }
            else row) db) = some row ∧ row.data = some r.to_dict := by
  intro db
  induction db with
  | nil => intro _ hc; simp at hc
  | cons a l ih =>
      intro h hc
      by_cases ha : (a.id == r.id) = true
      · have hu : a.user_id = u := h a (by simp) (by simpa using ha)
        have hfind : List.find? (fun rw => rw.user_id == u && rw.id == r.id)
            (List.map (fun row =>
              if row.id == r.id then
                { row with name := r.name, content := r.content, updated_at := r.updated_at,
                           data := some r.to_dict }
              else row) (a :: l)) =
            some { a with name := r.name, content := r.content, updated_at := r.updated_at,
                          data := some r.to_dict } := by
          rw [List.map_cons, if_pos ha]
          exact List.find?_cons_of_pos _ (by simp [ha, hu])
        exact ⟨_, hfind, rfl⟩
      · have hc' : List.any l (fun rw => rw.id == r.id) = true := by
          simpa [List.any_cons, ha] using hc
        have h' : ∀ row ∈ l, row.id = r.id → row.user_id = u :=
          fun row hr => h row (List.mem_cons_of_mem a hr)
        rcases ih h' hc' with ⟨row, hf, hd⟩
        refine ⟨row, ?_, hd⟩
        rw [List.map_cons, if_neg ha, List.find?_cons_of_neg _ (by simp [ha])]
        exact hf

/-- `save_recipe` leaves a row for (user, id) whose payload is the saved
recipe, provided no other user's row carries the same id. -/
theorem pg_save_find (db : DB) (u : Int) (r : Recipe)
    (h : ∀ row ∈ db, row.id = r.id → row.user_id = u) :
    ∃ row, List.find? (fun rw => rw.user_id == u && rw.id == r.id)
        (PostgreSQLStorage.save_recipe db u r) = some row ∧
      row.data = some r.to_dict := by
  unfold PostgreSQLStorage.save_recipe
  by_cases hc : List.any db (fun row => row.id == r.id) = true
  · rw [if_pos hc]
    exact pg_find_map u r db h hc
  · rw [if_neg hc]
    refine ⟨r.toRow u, ?_, rfl⟩
    rw [List.find?_append]
    have hnone : List.find? (fun rw => rw.user_id == u && rw.id == r.id) db = none := by
      rw [List.find?_eq_none]
      intro x hx hpx
      have hid : (x.id == r.id) = true := by
        simp only [Bool.and_eq_true] at hpx
        exact hpx.2
      exact hc (List.any_eq_true.mpr ⟨x, hx, hid⟩)
    rw [hnone]
    simp [Recipe.toRow, List.find?]

end PostgresLemmas


/-- C4: deserializing the serialization of a recipe yields a recipe equal to
it in all fields, in every backend's storage format: for the entity-level
round trip, for a file entry as written by the file backends, and for the
JSONB payload column as written by the relational backend. -/
theorem claim_C4_serialization_roundtrip :
    (∀ r : Recipe, Recipe.from_dict r.to_dict = r) ∧
    (∀ l : List Recipe, parseEntries (l.map (fun r => some r.to_dict)) = some l) ∧
    (∀ (u : Int) (r : Recipe), ((r.toRow u).data).map Recipe.from_dict = some r) :=
  ⟨from_dict_to_dict, parseEntries_map_to_dict, fun _ r => by
    simp [Recipe.toRow, from_dict_to_dict]⟩

/-- C7: `update_content` sets `content` to the new text and `updated_at` to
the current time, leaves `id`, `created_at` and `name` unchanged, and under
a clock that has not gone backwards since creation the result satisfies
`updated_at >= created_at`. -/
theorem claim_C7_update_content :
    ∀ (r : Recipe) (c : String) (now : Nat), r.created_at ≤ now →
      (r.update_content c now).content = c ∧
      (r.update_content c now).updated_at = now ∧
      (r.update_content c now).id = r.id ∧
      (r.update_content c now).created_at = r.created_at ∧
      (r.update_content c now).name = r.name ∧
      (r.update_content c now).created_at ≤ (r.update_content c now).updated_at :=
  fun _ _ _ h => ⟨rfl, rfl, rfl, rfl, rfl, h⟩

/-- Witness for C7 at a concrete recipe and clock value. -/
theorem claim_C7_witness :
    sampleRecipe.created_at ≤ 5 ∧
      ((sampleRecipe.update_content "simmer" 5).content = "simmer" ∧
        (sampleRecipe.update_content "simmer" 5).updated_at = 5 ∧
        (sampleRecipe.update_content "simmer" 5).id = sampleRecipe.id ∧
        (sampleRecipe.update_content "simmer" 5).created_at = sampleRecipe.created_at ∧
        (sampleRecipe.update_content "simmer" 5).name = sampleRecipe.name ∧
        (sampleRecipe.update_content "simmer" 5).created_at ≤
          (sampleRecipe.update_content "simmer" 5).updated_at) :=
  ⟨by decide, claim_C7_update_content sampleRecipe "simmer" 5 (by decide)⟩

/-- C8: `generate_recipe` never propagates a failure: on a successful call
the caller receives the generated content, and on any HTTP, authentication
or rate-limit failure the caller receives a text message of the matching
failure category (invalid credential on 401, rate limit on 429, generic
otherwise). -/
theorem claim_C8_generate_recipe_total :
    ∀ o : RequestOutcome,
      ((∃ c, o = RequestOutcome.ok c ∧ OpenAILLM.generate_recipe o = c) ∨
        OpenAILLM.isFailureMessage (OpenAILLM.generate_recipe o)) ∧
      (o = RequestOutcome.httpError 401 →
        OpenAILLM.generate_recipe o = OpenAILLM.invalidKeyMessage) ∧
      (o = RequestOutcome.httpError 429 →
        OpenAILLM.generate_recipe o = OpenAILLM.rateLimitMessage) ∧
      (o = RequestOutcome.requestFailure →
        OpenAILLM.generate_recipe o = OpenAILLM.genericMessage) ∧
      (∀ s, o = RequestOutcome.httpError s → s ≠ 401 → s ≠ 429 →
        OpenAILLM.generate_recipe o = OpenAILLM.genericHttpMessage s) := by
  intro o
  cases o with
  | ok c =>
      refine ⟨Or.inl ?_, ?_, ?_, ?_, ?_⟩
      · exact ⟨c, rfl, rfl⟩
      all_goals intros <;> simp_all
  | requestFailure =>
      refine ⟨Or.inr ?_, ?_, ?_, ?_, ?_⟩
      · exact Or.inr (Or.inr (Or.inr rfl))
      all_goals intros <;> simp_all [OpenAILLM.generate_recipe]
  | httpError s =>
      by_cases h1 : s = 401
      · subst h1
        refine ⟨Or.inr (Or.inl rfl), fun _ => rfl, ?_, ?_, ?_⟩ <;> intros <;> simp_all
      · by_cases h2 : s = 429
        · subst h2
          refine ⟨Or.inr ?_, ?_, fun _ => rfl, ?_, ?_⟩
          · exact Or.inr (Or.inl (by simp [OpenAILLM.generate_recipe]))
          all_goals intros <;> simp_all
        · have hg : OpenAILLM.generate_recipe (RequestOutcome.httpError s) =
              OpenAILLM.genericHttpMessage s := by
            simp [OpenAILLM.generate_recipe, h1, h2]
          refine ⟨Or.inr ?_, ?_, ?_, ?_, ?_⟩
          · unfold OpenAILLM.isFailureMessage
            exact Or.inr (Or.inr (Or.inl ⟨s, hg⟩))
          · intro he; cases he; exact absurd rfl h1
          · intro he; cases he; exact absurd rfl h2
          · intro he; cases he
          · intro t he _ _; cases he; exact hg

/-- Witness for C8 at the rate-limit outcome. -/
theorem claim_C8_witness :
    OpenAILLM.generate_recipe (RequestOutcome.httpError 429) =
      OpenAILLM.rateLimitMessage :=
  (claim_C8_generate_recipe_total (RequestOutcome.httpError 429)).2.2.1 rfl

/-- A file whose entries include one unparseable record fails to parse as a
whole. -/
theorem parseEntries_eq_none {es : List (Option RecipeDict)} (h : none ∈ es) :
    parseEntries es = none := by
  induction es with
  | nil => simp at h
  | cons e rest ih =>
      cases e with
      | none => rfl
      | some d =>
          have hr : none ∈ rest := by simpa using h
          simp [parseEntries, ih hr]


/-- C5: for every backend, after `delete_recipe(u, i)` the id `i` is gone —
`get_recipe` returns none and `i` is absent from `get_recipes` — and
deleting an absent id leaves the observable collection unchanged without
raising.  The relational per-row clause assumes rows whose payload id
matches their key column, as every row written by `save_recipe` does. -/
theorem claim_C5_delete_recipe :
    (∀ (store : FileStore) (u : Int) (i : String),
      JSONFileStorage.get_recipe (JSONFileStorage.delete_recipe store u i) u i = none ∧
      (∀ r ∈ JSONFileStorage.get_recipes (JSONFileStorage.delete_recipe store u i) u,
        r.id ≠ i) ∧
      ((JSONFileStorage.get_recipes store u).all (fun r => !(r.id == i)) = true →
        JSONFileStorage.get_recipes (JSONFileStorage.delete_recipe store u i) u =
          JSONFileStorage.get_recipes store u) ∧
      PersistentJSONStorage.get_recipe (PersistentJSONStorage.delete_recipe store u i) u i
        = none ∧
      (∀ r ∈ PersistentJSONStorage.get_recipes
          (PersistentJSONStorage.delete_recipe store u i) u, r.id ≠ i) ∧
      ((PersistentJSONStorage.get_recipes store u).all (fun r => !(r.id == i)) = true →
        PersistentJSONStorage.get_recipes (PersistentJSONStorage.delete_recipe store u i) u
          = PersistentJSONStorage.get_recipes store u)) ∧
    (∀ (db : DB) (u : Int) (i : String),
      PostgreSQLStorage.get_recipe (PostgreSQLStorage.delete_recipe db u i) u i = none ∧
      ((∀ row ∈ db, ∀ d, row.data = some d → d.id = row.id) →
        ∀ r ∈ PostgreSQLStorage.get_recipes (PostgreSQLStorage.delete_recipe db u i) u,
          r.id ≠ i) ∧
      ((∀ row ∈ db, ¬(row.user_id = u ∧ row.id = i)) →
        PostgreSQLStorage.delete_recipe db u i = db)) := by
  constructor
  · intro store u i
    have hread : ∀ l : List Recipe, readRecipes (writeRecipes store u l) u = l :=
      readRecipes_writeRecipes store u
    have hgone : ∀ r ∈ (readRecipes store u).filter (fun r => !(r.id == i)), r.id ≠ i := by
      intro r hr
      have := (List.mem_filter.mp hr).2
      simpa using this
    have hfind : ((readRecipes store u).filter (fun r => !(r.id == i))).find?
        (fun r => r.id == i) = none := by
      rw [List.find?_eq_none]
      intro x hx
      simpa using hgone x hx
    have hnoop : (readRecipes store u).all (fun r => !(r.id == i)) = true →
        (readRecipes store u).filter (fun r => !(r.id == i)) = readRecipes store u := by
      intro hall
      exact List.filter_eq_self.mpr (List.all_eq_true.mp hall)
    refine ⟨?_, ?_, ?_, ?_, ?_, ?_⟩
    · unfold JSONFileStorage.get_recipe JSONFileStorage.delete_recipe
        JSONFileStorage.get_recipes
      rw [hread]
      exact hfind
    · intro r hr
      unfold JSONFileStorage.get_recipes JSONFileStorage.delete_recipe at hr
      rw [hread] at hr
      exact hgone r hr
    · intro hall
      unfold JSONFileStorage.get_recipes JSONFileStorage.delete_recipe
      rw [hread]
      exact hnoop hall
    · unfold PersistentJSONStorage.get_recipe PersistentJSONStorage.delete_recipe
        PersistentJSONStorage.get_recipes
      rw [hread]
      exact hfind
    · intro r hr
      unfold PersistentJSONStorage.get_recipes PersistentJSONStorage.delete_recipe at hr
      rw [hread] at hr
      exact hgone r hr
    · intro hall
      unfold PersistentJSONStorage.get_recipes PersistentJSONStorage.delete_recipe
      rw [hread]
      exact hnoop hall
  · intro db u i
    refine ⟨?_, ?_, ?_⟩
    · unfold PostgreSQLStorage.get_recipe PostgreSQLStorage.delete_recipe
      have hnone : List.find? (fun row => row.user_id == u && row.id == i)
          (List.filter (fun row => !(row.user_id == u && row.id == i)) db) = none := by
        rw [List.find?_eq_none]
        intro x hx hpx
        have h2 := (List.mem_filter.mp hx).2
        simp [hpx] at h2
      rw [hnone]
      rfl
    · intro hconsistent r hr
      rcases mem_pg_get_recipes.mp hr with ⟨row, hrow, huser, hdata⟩
      have hmem : row ∈ db := List.mem_of_mem_filter hrow
      have hpred := (List.mem_filter.mp hrow).2
      rcases Option.map_eq_some'.mp hdata with ⟨d, hd, hfd⟩
      have hid : d.id = row.id := hconsistent row hmem d hd
      have : ¬(row.user_id = u ∧ row.id = i) := by
        simp at hpred
        tauto
      intro hri
      apply this
      refine ⟨huser, ?_⟩
      rw [← hid, ← hri, ← hfd]
      rfl
    · intro habsent
      unfold PostgreSQLStorage.delete_recipe
      refine List.filter_eq_self.mpr ?_
      intro row hrow
      have h := habsent row hrow
      simp
      tauto

/-- Witness for C5: deleting the absent id "zzz" from a concrete file store
and a concrete table changes neither. -/
theorem claim_C5_witness :
    ((JSONFileStorage.get_recipes store0 1).all (fun r => !(r.id == "zzz")) = true ∧
      JSONFileStorage.get_recipes (JSONFileStorage.delete_recipe store0 1 "zzz") 1 =
        JSONFileStorage.get_recipes store0 1) ∧
    ((∀ row ∈ db0, ¬(row.user_id = 1 ∧ row.id = "zzz")) ∧
      PostgreSQLStorage.delete_recipe db0 1 "zzz" = db0) :=
  ⟨⟨by decide, (claim_C5_delete_recipe.1 store0 1 "zzz").2.2.1 (by decide)⟩,
    ⟨by decide, (claim_C5_delete_recipe.2 db0 1 "zzz").2.2 (by decide)⟩⟩

/-- C6: `get_recipes` never raises an error.  Both file backends return the
empty collection when the user's file is absent, unreadable, or contains an
unparseable entry; the relational backend returns exactly the parseable
rows of the user, dropping a malformed row individually without affecting
the remainder. -/
theorem claim_C6_get_recipes_never_fails :
    (∀ (store : FileStore) (u : Int),
      (store u = FileContent.missing → JSONFileStorage.get_recipes store u = []) ∧
      (store u = FileContent.corrupt → JSONFileStorage.get_recipes store u = []) ∧
      (∀ es, store u = FileContent.good es → none ∈ es →
        JSONFileStorage.get_recipes store u = []) ∧
      (store u = FileContent.missing → PersistentJSONStorage.get_recipes store u = []) ∧
      (store u = FileContent.corrupt → PersistentJSONStorage.get_recipes store u = []) ∧
      (∀ es, store u = FileContent.good es → none ∈ es →
        PersistentJSONStorage.get_recipes store u = [])) ∧
    (∀ (db : DB) (u : Int) (r : Recipe),
      r ∈ PostgreSQLStorage.get_recipes db u ↔
        ∃ row, row ∈ db ∧ row.user_id = u ∧ row.data.map Recipe.from_dict = some r) := by
  constructor
  · intro store u
    have hmissing : store u = FileContent.missing → readRecipes store u = [] := by
      intro h; unfold readRecipes; rw [h]
    have hcorrupt : store u = FileContent.corrupt → readRecipes store u = [] := by
      intro h; unfold readRecipes; rw [h]
    have hbad : ∀ es, store u = FileContent.good es → none ∈ es →
        readRecipes store u = [] := by
      intro es h hnone
      unfold readRecipes
      rw [h]
      simp [parseEntries_eq_none hnone]
    exact ⟨hmissing, hcorrupt, hbad, hmissing, hcorrupt, hbad⟩
  · intro db u r
    exact mem_pg_get_recipes

/-- Witness for C6 at a corrupt user file and a one-row table. -/
theorem claim_C6_witness :
    (corruptStore 1 = FileContent.corrupt ∧
      JSONFileStorage.get_recipes corruptStore 1 = []) ∧
    (sampleRecipe ∈ PostgreSQLStorage.get_recipes db0 2 ↔
      ∃ row, row ∈ db0 ∧ row.user_id = 2 ∧
        row.data.map Recipe.from_dict = some sampleRecipe) :=
  ⟨⟨rfl, (claim_C6_get_recipes_never_fails.1 corruptStore 1).2.1 rfl⟩,
    claim_C6_get_recipes_never_fails.2 db0 2 sampleRecipe⟩

/-- C9: the file backends return recipes in insertion order — a saved
recipe (with a fresh id, for the upserting persistent backend) lands at the
end and existing order is preserved — while the relational backend returns
the user's rows in creation-time descending order (stated for tables whose
payload creation time agrees with the row column, as every row written by
`save_recipe` does). -/
theorem claim_C9_ordering :
    (∀ (store : FileStore) (u : Int) (r : Recipe),
      JSONFileStorage.get_recipes (JSONFileStorage.save_recipe store u r) u =
        JSONFileStorage.get_recipes store u ++ [r]) ∧
    (∀ (store : FileStore) (u : Int) (r : Recipe),
      (PersistentJSONStorage.get_recipes store u).any (fun x => x.id == r.id) = false →
      PersistentJSONStorage.get_recipes (PersistentJSONStorage.save_recipe store u r) u =
        PersistentJSONStorage.get_recipes store u ++ [r]) ∧
    (∀ (db : DB) (u : Int),
      (∀ row ∈ db, ∀ d, row.data = some d → d.created_at = row.created_at) →
      List.Sorted recipeOrder (PostgreSQLStorage.get_recipes db u)) := by
  refine ⟨?_, ?_, ?_⟩
  · intro store u r
    unfold JSONFileStorage.get_recipes JSONFileStorage.save_recipe
      JSONFileStorage.get_recipes
    exact readRecipes_writeRecipes store u _
  · intro store u r hfresh
    have hfresh' : ((readRecipes store u).any fun x => x.id == r.id) = false := hfresh
    simp only [PersistentJSONStorage.get_recipes, PersistentJSONStorage.save_recipe]
    rw [hfresh']
    simp only [Bool.false_eq_true, if_false]
    exact readRecipes_writeRecipes store u _
  · intro db u hconsistent
    unfold PostgreSQLStorage.get_recipes
    have hsorted : List.Sorted rowOrder
        (List.insertionSort rowOrder (List.filter (fun row => row.user_id == u) db)) :=
      List.sorted_insertionSort rowOrder _
    have hmemdb : ∀ row ∈ List.insertionSort rowOrder
        (List.filter (fun row => row.user_id == u) db), row ∈ db := by
      intro row hrow
      rw [List.mem_insertionSort] at hrow
      exact List.mem_of_mem_filter hrow
    have hstrong : List.Pairwise (fun a b => rowOrder a b ∧ a ∈ db ∧ b ∈ db)
        (List.insertionSort rowOrder (List.filter (fun row => row.user_id == u) db)) :=
      List.Pairwise.imp_of_mem (fun ha hb hr => ⟨hr, hmemdb _ ha, hmemdb _ hb⟩) hsorted
    show List.Pairwise recipeOrder _
    refine List.Pairwise.filterMap (fun row => row.data.map Recipe.from_dict) ?_ hstrong
    intro a b hab x hx y hy
    rcases hab with ⟨horder, hadb, hbdb⟩
    rcases Option.map_eq_some'.mp hx with ⟨da, hda, hxda⟩
    rcases Option.map_eq_some'.mp hy with ⟨dbd, hdbd, hydb⟩
    have hca := hconsistent a hadb da hda
    have hcb := hconsistent b hbdb dbd hdbd
    subst hxda hydb
    simpa [recipeOrder, Recipe.from_dict, hca, hcb] using horder

/-- Witness for C9: a fresh save on an empty persistent store appends, and
the concrete one-row table reads back sorted. -/
theorem claim_C9_witness :
    ((PersistentJSONStorage.get_recipes emptyStore 1).any
        (fun x => x.id == sampleRecipe.id) = false ∧
      PersistentJSONStorage.get_recipes
          (PersistentJSONStorage.save_recipe emptyStore 1 sampleRecipe) 1 =
        PersistentJSONStorage.get_recipes emptyStore 1 ++ [sampleRecipe]) ∧
    List.Sorted recipeOrder (PostgreSQLStorage.get_recipes db0 2) :=
  ⟨⟨by decide, claim_C9_ordering.2.1 emptyStore 1 sampleRecipe (by decide)⟩,
    claim_C9_ordering.2.2 db0 2 (by
      intro row hrow d hd
      simp only [db0, List.mem_singleton] at hrow
      subst hrow
      simp only [Recipe.toRow, Option.some.injEq] at hd
      subst hd
      rfl)⟩

/-- Counterexample to C1 as stated: `JSONFileStorage.update_recipe` stores
the replacement verbatim and never refreshes `updated_at` — here the stored
timestamp moves from 5 to the replacement's stale 0, so no refresh to the
call time happened (only the relational backend stamps the current time). -/
theorem claim_C1_counterexample :
    (JSONFileStorage.get_recipe staleStore 1 "recipe_1_1").map Recipe.updated_at =
      some 5 ∧
    (JSONFileStorage.get_recipe
        (JSONFileStorage.update_recipe staleStore 1 "recipe_1_1" newRecipe)
        1 "recipe_1_1").map Recipe.updated_at = some 0 := by
  decide

/-- C1 as amended: `update_recipe` replaces the first stored recipe whose id
matches, leaving every other stored recipe unchanged; the file backends
store the replacement verbatim (its `updated_at` is whatever the caller
set), while the relational backend patches exactly the rows carrying the id
in place — refreshing `updated_at` to the call time and rewriting the
payload — and keeps every other row of the table untouched (the resulting
table is precisely the rowwise-patched input table). -/
theorem claim_C1_update_replaces :
    (∀ (store : FileStore) (u : Int) (i : String) (r : Recipe),
      JSONFileStorage.get_recipes (JSONFileStorage.update_recipe store u i r) u =
        replaceFirst (JSONFileStorage.get_recipes store u) i r) ∧
    (∀ (store : FileStore) (u : Int) (r : Recipe),
      (PersistentJSONStorage.get_recipes store u).any (fun x => x.id == r.id) = true →
      PersistentJSONStorage.get_recipes (PersistentJSONStorage.update_recipe store u r) u =
        replaceFirst (PersistentJSONStorage.get_recipes store u) r.id r) ∧
    (∀ (db : DB) (u : Int) (r : Recipe) (now : Nat),
      List.any db (fun row => row.id == r.id) = true →
      PostgreSQLStorage.update_recipe db u r now =
        List.map (fun row =>
          if row.id == r.id then
            { row with name := r.name, content := r.content, updated_at := now,
                       data := some (Recipe.to_dict { r with updated_at := now }) }
          else row) db) := by
  refine ⟨?_, ?_, ?_⟩
  · intro store u i r
    by_cases hc : ((readRecipes store u).any fun x => x.id == i) = true
    · simp only [JSONFileStorage.get_recipes, JSONFileStorage.update_recipe]
      rw [if_pos hc]
      exact readRecipes_writeRecipes store u _
    · have hc' : ((readRecipes store u).any fun x => x.id == i) = false :=
        Bool.eq_false_iff.mpr hc
      simp only [JSONFileStorage.get_recipes, JSONFileStorage.update_recipe]
      rw [if_neg hc, replaceFirst_of_not_mem _ _ _ hc']
  · intro store u r hc
    simp only [PersistentJSONStorage.get_recipes] at hc
    simp only [PersistentJSONStorage.get_recipes, PersistentJSONStorage.update_recipe,
      PersistentJSONStorage.save_recipe]
    rw [if_pos hc]
    exact readRecipes_writeRecipes store u _
  · intro db u r now hc
    have hc' : List.any db
        (fun row => row.id == ({ r with updated_at := now } : Recipe).id) = true := hc
    unfold PostgreSQLStorage.update_recipe PostgreSQLStorage.save_recipe
    rw [if_pos hc']

/-- Witness for C1 (amended) at a concrete store and table containing the
target id. -/
theorem claim_C1_witness :
    ((PersistentJSONStorage.get_recipes staleStore 1).any
        (fun x => x.id == newRecipe.id) = true ∧
      PersistentJSONStorage.get_recipes
          (PersistentJSONStorage.update_recipe staleStore 1 newRecipe) 1 =
        replaceFirst (PersistentJSONStorage.get_recipes staleStore 1)
          newRecipe.id newRecipe) ∧
    (List.any db1 (fun row => row.id == newRecipe.id) = true ∧
      PostgreSQLStorage.update_recipe db1 1 newRecipe 9 =
        List.map (fun row =>
          if row.id == newRecipe.id then
            { row with name := newRecipe.name, content := newRecipe.content,
                       updated_at := 9,
                       data := some (Recipe.to_dict { newRecipe with updated_at := 9 }) }
          else row) db1) :=
  ⟨⟨by decide, claim_C1_update_replaces.2.1 staleStore 1 newRecipe (by decide)⟩,
    ⟨by decide, claim_C1_update_replaces.2.2 db1 1 newRecipe 9 (by decide)⟩⟩

/-- Counterexample to C2 as stated: `PersistentJSONStorage.update_recipe`
on an id absent from the user's (empty) collection does not leave the
collection unchanged — delegating to the upserting `save_recipe`, it
inserts the recipe. -/
theorem claim_C2_counterexample :
    PersistentJSONStorage.get_recipes emptyStore 7 = [] ∧
    PersistentJSONStorage.get_recipes
        (PersistentJSONStorage.update_recipe emptyStore 7 sampleRecipe) 7 =
      [sampleRecipe] := by
  decide

/-- C2 as amended: on an id absent from the user's collection,
`JSONFileStorage.update_recipe` is an exact no-op (warning only); the
persistent file backend and the relational backend instead insert the given
recipe (appending it to the file, respectively inserting a fresh row with
`updated_at` stamped to the call time).  None of the three raises. -/
theorem claim_C2_update_missing_id :
    (∀ (store : FileStore) (u : Int) (i : String) (r : Recipe),
      (JSONFileStorage.get_recipes store u).any (fun x => x.id == i) = false →
      JSONFileStorage.update_recipe store u i r = store) ∧
    (∀ (store : FileStore) (u : Int) (r : Recipe),
      (PersistentJSONStorage.get_recipes store u).any (fun x => x.id == r.id) = false →
      PersistentJSONStorage.get_recipes (PersistentJSONStorage.update_recipe store u r) u =
        PersistentJSONStorage.get_recipes store u ++ [r]) ∧
    (∀ (db : DB) (u : Int) (r : Recipe) (now : Nat),
      List.any db (fun row => row.id == r.id) = false →
      PostgreSQLStorage.update_recipe db u r now =
        db ++ [Recipe.toRow u { r with updated_at := now }]) := by
  refine ⟨?_, ?_, ?_⟩
  · intro store u i r hc
    simp only [JSONFileStorage.update_recipe]
    rw [hc]
    simp
  · intro store u r hc
    simp only [PersistentJSONStorage.get_recipes] at hc
    simp only [PersistentJSONStorage.get_recipes, PersistentJSONStorage.update_recipe,
      PersistentJSONStorage.save_recipe]
    rw [hc]
    simp only [Bool.false_eq_true, if_false]
    exact readRecipes_writeRecipes store u _
  · intro db u r now hc
    have hc' : List.any db
        (fun row => row.id == ({ r with updated_at := now } : Recipe).id) = false := hc
    unfold PostgreSQLStorage.update_recipe PostgreSQLStorage.save_recipe
    rw [if_neg (by rw [hc']; exact Bool.false_ne_true)]

/-- Witness for C2 (amended): updating with the absent id "zzz" is a no-op
on the blind-append backend, while the relational backend inserts a fresh
row. -/
theorem claim_C2_witness :
    ((JSONFileStorage.get_recipes store0 1).any (fun x => x.id == "zzz") = false ∧
      JSONFileStorage.update_recipe store0 1 "zzz" renamedRecipe = store0) ∧
    (List.any db0 (fun row => row.id == "recipe_9_9") = false ∧
      PostgreSQLStorage.update_recipe db0 1 (Recipe.create_new 9 "soup" "stir" 9) 9 =
        db0 ++ [Recipe.toRow 1
          { Recipe.create_new 9 "soup" "stir" 9 with updated_at := 9 }]) :=
  ⟨⟨by decide, claim_C2_update_missing_id.1 store0 1 "zzz" renamedRecipe (by decide)⟩,
    ⟨by decide, claim_C2_update_missing_id.2.2 db0 1
      (Recipe.create_new 9 "soup" "stir" 9) 9 (by decide)⟩⟩

/-- Counterexample to C3 as stated: `JSONFileStorage.save_recipe` appends
blindly instead of upserting, and `get_recipe` returns the first id match,
so saving a recipe whose id already exists and reading that id back yields
the old recipe, not the one just saved. -/
theorem claim_C3_counterexample :
    JSONFileStorage.get_recipe
        (JSONFileStorage.save_recipe store0 1 renamedRecipe) 1 "recipe_1_1" =
      some sampleRecipe ∧
    sampleRecipe ≠ renamedRecipe := by
  decide

/-- C3 as amended: `save_recipe` followed by `get_recipe` on the same id
returns the recipe just saved — unconditionally for the upserting
persistent backend; for the relational backend provided no other user's row
carries the same id; and for the blind-append JSON backend only when no
recipe with that id was already stored. -/
theorem claim_C3_save_then_get :
    (∀ (store : FileStore) (u : Int) (r : Recipe),
      (JSONFileStorage.get_recipes store u).any (fun x => x.id == r.id) = false →
      JSONFileStorage.get_recipe (JSONFileStorage.save_recipe store u r) u r.id =
        some r) ∧
    (∀ (store : FileStore) (u : Int) (r : Recipe),
      PersistentJSONStorage.get_recipe (PersistentJSONStorage.save_recipe store u r) u r.id
        = some r) ∧
    (∀ (db : DB) (u : Int) (r : Recipe),
      (∀ row ∈ db, row.id = r.id → row.user_id = u) →
      PostgreSQLStorage.get_recipe (PostgreSQLStorage.save_recipe db u r) u r.id =
        some r) := by
  refine ⟨?_, ?_, ?_⟩
  · intro store u r hfresh
    simp only [JSONFileStorage.get_recipes] at hfresh
    simp only [JSONFileStorage.get_recipe, JSONFileStorage.get_recipes,
      JSONFileStorage.save_recipe]
    rw [readRecipes_writeRecipes, List.find?_append]
    have hnone : (readRecipes store u).find? (fun x => x.id == r.id) = none := by
      rw [List.find?_eq_none]
      exact List.any_eq_false.mp hfresh
    rw [hnone]
    simp
  · intro store u r
    simp only [PersistentJSONStorage.get_recipe, PersistentJSONStorage.get_recipes,
      PersistentJSONStorage.save_recipe]
    by_cases hc : ((readRecipes store u).any fun x => x.id == r.id) = true
    · rw [if_pos hc, readRecipes_writeRecipes]
      exact find?_replaceFirst_self _ _ hc
    · have hc' : ((readRecipes store u).any fun x => x.id == r.id) = false :=
        Bool.eq_false_iff.mpr hc
      rw [if_neg hc, readRecipes_writeRecipes, List.find?_append]
      have hnone : (readRecipes store u).find? (fun x => x.id == r.id) = none := by
        rw [List.find?_eq_none]
        exact List.any_eq_false.mp hc'
      rw [hnone]
      simp
  · intro db u r h
    rcases pg_save_find db u r h with ⟨row, hfind, hdata⟩
    simp only [PostgreSQLStorage.get_recipe]
    rw [hfind]
    simp [hdata, from_dict_to_dict]

/-- Witness for C3 (amended): a fresh save on the empty JSON store and a
same-user save on the concrete table both read back as the recipe saved. -/
theorem claim_C3_witness :
    ((JSONFileStorage.get_recipes emptyStore 1).any
        (fun x => x.id == sampleRecipe.id) = false ∧
      JSONFileStorage.get_recipe
          (JSONFileStorage.save_recipe emptyStore 1 sampleRecipe) 1 sampleRecipe.id =
        some sampleRecipe) ∧
    ((∀ row ∈ db0, row.id = renamedRecipe.id → row.user_id = 2) ∧
      PostgreSQLStorage.get_recipe
          (PostgreSQLStorage.save_recipe db0 2 renamedRecipe) 2 renamedRecipe.id =
        some renamedRecipe) :=
  ⟨⟨by decide, claim_C3_save_then_get.1 emptyStore 1 sampleRecipe (by decide)⟩,
    ⟨by decide, claim_C3_save_then_get.2.2 db0 2 renamedRecipe (by decide)⟩⟩

/-- The conflict arm of the relational upsert does not touch the rows of
any user other than the one every clashing row belongs to. -/
theorem pg_filter_map_frame (u v : Int) (r : Recipe) (hvu : v ≠ u) :
    ∀ db : List Row, (∀ row ∈ db, row.id = r.id → row.user_id = u) →
      List.filter (fun row => row.user_id == v)
        (List.map (fun row =>
          if row.id == r.id then
            { row with name := r.name, content := r.content, updated_at := r.updated_at,
                       data := some r.to_dict }
          else row) db) =
      List.filter (fun row => row.user_id == v) db := by
  intro db
  induction db with
  | nil => intro _; rfl
  | cons a l ih =>
      intro h
      have h' : ∀ row ∈ l, row.id = r.id → row.user_id = u :=
        fun row hr => h row (List.mem_cons_of_mem a hr)
      by_cases hid : (a.id == r.id) = true
      · have hu : a.user_id = u := h a (by simp) (by simpa using hid)
        have hv : (a.user_id == v) = false := by
          rw [hu]
          exact beq_eq_false_iff_ne.mpr (Ne.symm hvu)
        rw [List.map_cons, if_pos hid, List.filter_cons, List.filter_cons, ih h']
        simp [hv]
      · rw [List.map_cons, if_neg hid, List.filter_cons, List.filter_cons, ih h']

/-- A relational save by one user leaves every other user's rows intact,
provided no clashing id belongs to another user. -/
theorem pg_save_filter_frame (db : DB) (u v : Int) (r : Recipe) (hvu : v ≠ u)
    (h : ∀ row ∈ db, row.id = r.id → row.user_id = u) :
    List.filter (fun row => row.user_id == v) (PostgreSQLStorage.save_recipe db u r) =
      List.filter (fun row => row.user_id == v) db := by
  unfold PostgreSQLStorage.save_recipe
  by_cases hc : List.any db (fun row => row.id == r.id) = true
  · rw [if_pos hc]
    exact pg_filter_map_frame u v r hvu db h
  · rw [if_neg hc, List.filter_append]
    have hnew : List.filter (fun row => row.user_id == v) [r.toRow u] = [] := by
      simp [Recipe.toRow]
      exact Ne.symm hvu
    rw [hnew, List.append_nil]

/-- Counterexample to C10 as stated: the relational upsert conflicts on id
alone, so user 1 saving a recipe whose id equals user 2's stored row
overwrites that row's payload in place — user 2's collection changes. -/
theorem claim_C10_counterexample :
    PostgreSQLStorage.get_recipes (PostgreSQLStorage.save_recipe db0 1 renamedRecipe) 2 ≠
      PostgreSQLStorage.get_recipes db0 2 := by
  decide

/-- C10 as amended: per-user isolation holds unconditionally for both file
backends (each operation writes only the file of its own user) and for
relational deletes (filtered by `user_id`); relational saves and updates
preserve the other users' rows provided no row of another user carries the
saved recipe's id — a cross-user id collision instead overwrites the other
user's row. -/
theorem claim_C10_user_isolation :
    (∀ (store : FileStore) (u v : Int) (i : String) (r : Recipe), v ≠ u →
      JSONFileStorage.save_recipe store u r v = store v ∧
      JSONFileStorage.update_recipe store u i r v = store v ∧
      JSONFileStorage.delete_recipe store u i v = store v ∧
      PersistentJSONStorage.save_recipe store u r v = store v ∧
      PersistentJSONStorage.update_recipe store u r v = store v ∧
      PersistentJSONStorage.delete_recipe store u i v = store v) ∧
    (∀ (db : DB) (u v : Int) (i : String), v ≠ u →
      List.filter (fun row => row.user_id == v) (PostgreSQLStorage.delete_recipe db u i) =
        List.filter (fun row => row.user_id == v) db) ∧
    (∀ (db : DB) (u v : Int) (r : Recipe) (now : Nat), v ≠ u →
      (∀ row ∈ db, row.id = r.id → row.user_id = u) →
      List.filter (fun row => row.user_id == v) (PostgreSQLStorage.save_recipe db u r) =
        List.filter (fun row => row.user_id == v) db ∧
      List.filter (fun row => row.user_id == v)
          (PostgreSQLStorage.update_recipe db u r now) =
        List.filter (fun row => row.user_id == v) db) := by
  refine ⟨?_, ?_, ?_⟩
  · intro store u v i r hvu
    have hupd : JSONFileStorage.update_recipe store u i r v = store v := by
      simp only [JSONFileStorage.update_recipe]
      by_cases hc : ((JSONFileStorage.get_recipes store u).any fun x => x.id == i) = true
      · rw [if_pos hc]
        exact writeRecipes_frame store u v _ hvu
      · rw [if_neg hc]
    exact ⟨writeRecipes_frame store u v _ hvu, hupd,
      writeRecipes_frame store u v _ hvu, writeRecipes_frame store u v _ hvu,
      writeRecipes_frame store u v _ hvu, writeRecipes_frame store u v _ hvu⟩
  · intro db u v i hvu
    unfold PostgreSQLStorage.delete_recipe
    rw [List.filter_filter]
    refine List.filter_congr ?_
    intro row _
    by_cases hv : (row.user_id == v) = true
    · have hvv : row.user_id = v := by simpa using hv
      have hu : (row.user_id == u) = false := by
        rw [hvv]
        exact beq_eq_false_iff_ne.mpr hvu
      simp [hv, hu]
    · simp [Bool.eq_false_iff.mpr hv]
  · intro db u v r now hvu h
    exact ⟨pg_save_filter_frame db u v r hvu h,
      pg_save_filter_frame db u v { r with updated_at := now } hvu h⟩

/-- Witness for C10 (amended) at concrete users 1 and 2. -/
theorem claim_C10_witness :
    ((2 : Int) ≠ 1 ∧
      JSONFileStorage.save_recipe store0 1 renamedRecipe 2 = store0 2 ∧
      JSONFileStorage.update_recipe store0 1 "recipe_1_1" renamedRecipe 2 = store0 2 ∧
      JSONFileStorage.delete_recipe store0 1 "recipe_1_1" 2 = store0 2 ∧
      PersistentJSONStorage.save_recipe store0 1 renamedRecipe 2 = store0 2 ∧
      PersistentJSONStorage.update_recipe store0 1 renamedRecipe 2 = store0 2 ∧
      PersistentJSONStorage.delete_recipe store0 1 "recipe_1_1" 2 = store0 2) ∧
    ((1 : Int) ≠ 2 ∧
      (∀ row ∈ db0, row.id = sampleRecipe.id → row.user_id = 2) ∧
      (List.filter (fun row => row.user_id == 1)
          (PostgreSQLStorage.save_recipe db0 2 sampleRecipe) =
        List.filter (fun row => row.user_id == 1) db0 ∧
      List.filter (fun row => row.user_id == 1)
          (PostgreSQLStorage.update_recipe db0 2 sampleRecipe 9) =
        List.filter (fun row => row.user_id == 1) db0)) :=
  ⟨⟨by decide, claim_C10_user_isolation.1 store0 1 2 "recipe_1_1" renamedRecipe (by decide)⟩,
    ⟨by decide, by decide,
      claim_C10_user_isolation.2.2 db0 2 1 sampleRecipe 9 (by decide) (by decide)⟩⟩
